import Mathlib

/-!
# Ray casting: shape intersection tests and the occlusion loop of `draw`

A shallow embedding of `main.go`.

* `float32`/`float64` values are elements of a linearly ordered field `F`, and
  `+ - * /` are the field operations: rounding, overflow and NaN are not
  modelled.  The results below are about the order and structure of the
  loops, the branches taken on the values the code computes, and concrete
  scenes; statements that hold only up to `float32` rounding are outside this
  development.  All definitions are computable and can be evaluated at
  `F := ℚ`.
* `math.Sqrt` is only called as `float32(math.Sqrt(float64(x)))`; that
  composite is the parameter `sqrt : F → F` of every function that calls it.
  `IsSqrt sqrt` says that it is exact, as `Real.sqrt` is on `ℝ`; the rounded
  composite of the program is monotone and exact on the squares of the
  integers below `2^24`.
* `math.Cos(angle)` and `math.Sin(angle)` enter the loop body of `draw` as the
  two numbers `cosA` and `sinA`.
* The `Shape` interface is the closed sum of its three implementations.
* The window size read by `getScreenSize()` and the mouse state read at the
  end of `draw` are inputs: two integers `w h`, and a `FrameInput` per frame.
* Division by zero is `0` in a field; `Circle.RayIntersection` is only
  evaluated at a non-zero direction, and `rayLineIntersection` never divides
  by a value below `1e-6` in magnitude.
-/

namespace Raycast

/-- The `color.RGBA` record (four 8-bit channels). -/
structure RGBA where
  R : Nat
  G : Nat
  B : Nat
  A : Nat
deriving DecidableEq, Repr

/-- The `rl.Vector2` record. -/
@[ext]
structure Vector2 (F : Type) where
  X : F
  Y : F
deriving DecidableEq, Repr

/-- The `Circle` shape. -/
structure Circle (F : Type) where
  X : F
  Y : F
  Radius : F
  Color : RGBA
deriving DecidableEq, Repr

/-- The `Rectangle` shape. -/
structure Rectangle (F : Type) where
  X : F
  Y : F
  Width : F
  Height : F
  Color : RGBA
deriving DecidableEq, Repr

/-- The `Line` shape (wall). -/
structure Line (F : Type) where
  Start : Vector2 F
  End : Vector2 F
  Color : RGBA
  Thickness : F
deriving DecidableEq, Repr

/-- The `Shape` interface, as the sum of its implementations. -/
inductive Shape (F : Type) where
  | circle (c : Circle F)
  | rectangle (r : Rectangle F)
  | line (l : Line F)
deriving DecidableEq, Repr

section Code

variable {F : Type} [LinearOrderedField F]

/-- The constant `math.MaxFloat32`, `(2 - 2^(-23)) * 2^127 = (2^24 - 1) * 2^104`. -/
def MaxFloat32 : F := (2 ^ 24 - 1) * 2 ^ 104

/-- The helper `rayLineIntersection(rayStart, rayDir, lineStart, lineEnd)`. -/
def rayLineIntersection (rayStart rayDir lineStart lineEnd : Vector2 F) : Bool × F :=
  let v1 : Vector2 F := ⟨rayStart.X - lineStart.X, rayStart.Y - lineStart.Y⟩
  let v2 : Vector2 F := ⟨lineEnd.X - lineStart.X, lineEnd.Y - lineStart.Y⟩
  let v3 : Vector2 F := ⟨-rayDir.Y, rayDir.X⟩
  let dot := v2.X * v3.X + v2.Y * v3.Y
  if |dot| < 1 / 1000000 then
    (false, 0)
  else
    let t := (v2.X * v1.Y - v2.Y * v1.X) / dot
    let u := (v1.X * v3.X + v1.Y * v3.Y) / dot
    if t ≥ 0 ∧ u ≥ 0 ∧ u ≤ 1 then
      (true, t)
    else
      (false, 0)

/-- The method `Circle.RayIntersection(rayStart, rayDir)`. -/
def Circle.RayIntersection (sqrt : F → F) (c : Circle F) (rayStart rayDir : Vector2 F) :
    Bool × Vector2 F :=
  let oc : Vector2 F := ⟨rayStart.X - c.X, rayStart.Y - c.Y⟩
  let a := rayDir.X * rayDir.X + rayDir.Y * rayDir.Y
  let b := 2 * (oc.X * rayDir.X + oc.Y * rayDir.Y)
  let discriminant := b * b - 4 * a * (oc.X * oc.X + oc.Y * oc.Y - c.Radius * c.Radius)
  if discriminant < 0 then
    (false, ⟨0, 0⟩)
  else
    let t := (-b - sqrt discriminant) / (2 * a)
    if t < 0 then
      (false, ⟨0, 0⟩)
    else
      (true, ⟨rayStart.X + rayDir.X * t, rayStart.Y + rayDir.Y * t⟩)

/-- The `edges` slice of `Rectangle.RayIntersection`: top, right, bottom, left. -/
def Rectangle.edges (r : Rectangle F) : List (Vector2 F × Vector2 F) :=
  [ (⟨r.X, r.Y⟩, ⟨r.X + r.Width, r.Y⟩),
    (⟨r.X + r.Width, r.Y⟩, ⟨r.X + r.Width, r.Y + r.Height⟩),
    (⟨r.X + r.Width, r.Y + r.Height⟩, ⟨r.X, r.Y + r.Height⟩),
    (⟨r.X, r.Y + r.Height⟩, ⟨r.X, r.Y⟩) ]

/-- One iteration of the edge loop of `Rectangle.RayIntersection`; the state is
`(closestT, hasHit)`. -/
def Rectangle.edgeStep (rayStart rayDir : Vector2 F) (acc : F × Bool)
    (edge : Vector2 F × Vector2 F) : F × Bool :=
  let res := rayLineIntersection rayStart rayDir edge.1 edge.2
  if res.1 = true ∧ res.2 < acc.1 then (res.2, true) else acc

/-- The method `Rectangle.RayIntersection(rayStart, rayDir)`. -/
def Rectangle.RayIntersection (r : Rectangle F) (rayStart rayDir : Vector2 F) :
    Bool × Vector2 F :=
  let fin := r.edges.foldl (Rectangle.edgeStep rayStart rayDir) (MaxFloat32, false)
  if fin.2 = true then
    (true, ⟨rayStart.X + rayDir.X * fin.1, rayStart.Y + rayDir.Y * fin.1⟩)
  else
    (false, ⟨0, 0⟩)

/-- The method `Line.RayIntersection(rayStart, rayDir)`. -/
def Line.RayIntersection (l : Line F) (rayStart rayDir : Vector2 F) : Bool × Vector2 F :=
  let res := rayLineIntersection rayStart rayDir l.Start l.End
  if res.1 = true then
    (true, ⟨rayStart.X + rayDir.X * res.2, rayStart.Y + rayDir.Y * res.2⟩)
  else
    (false, ⟨0, 0⟩)

/-- Dynamic dispatch of `RayIntersection` through the `Shape` interface. -/
def Shape.RayIntersection (sqrt : F → F) (s : Shape F) (rayStart rayDir : Vector2 F) :
    Bool × Vector2 F :=
  match s with
  | .circle c => c.RayIntersection sqrt rayStart rayDir
  | .rectangle r => r.RayIntersection rayStart rayDir
  | .line l => l.RayIntersection rayStart rayDir

/-- The distance computed in the occlusion loop of `draw`:
`sqrt(dx*dx + dy*dy)` with `dx, dy` the offset of `p` from `start`. -/
def distance (sqrt : F → F) (start p : Vector2 F) : F :=
  let dx := p.X - start.X
  let dy := p.Y - start.Y
  sqrt (dx * dx + dy * dy)

/-- The three loop variables of the occlusion loop of `draw`. -/
structure Scan (F : Type) where
  closestDistance : F
  hasCollision : Bool
  closestPoint : Vector2 F
deriving DecidableEq, Repr

/-- One iteration of the occlusion loop of `draw` over the obstacles. -/
def scanStep (sqrt : F → F) (start rayDir : Vector2 F) (st : Scan F) (obstacle : Shape F) :
    Scan F :=
  let res := obstacle.RayIntersection sqrt start rayDir
  if res.1 = true then
    if distance sqrt start res.2 < st.closestDistance then
      ⟨distance sqrt start res.2, true, res.2⟩
    else st
  else st

/-- The occlusion loop of `draw`: all obstacles, in registry order, from the
initial state `closestDistance = maxDistance`, `hasCollision = false`. -/
def scan (sqrt : F → F) (obstacles : List (Shape F)) (maxDistance : F)
    (start rayDir : Vector2 F) : Scan F :=
  obstacles.foldl (scanStep sqrt start rayDir) ⟨maxDistance, false, ⟨0, 0⟩⟩

/-- The ray origin `start` of `draw`, on the light's circumference. -/
def rayOrigin (light : Circle F) (cosA sinA : F) : Vector2 F :=
  ⟨light.X + cosA * light.Radius, light.Y + sinA * light.Radius⟩

/-- The direction `rayDir` of `draw`. -/
def rayDirection (maxDistance cosA sinA : F) : Vector2 F :=
  ⟨cosA * maxDistance, sinA * maxDistance⟩

/-- The initial value of `end` in `draw`, the full-length endpoint. -/
def fullLengthEnd (light : Circle F) (maxDistance cosA sinA : F) : Vector2 F :=
  ⟨light.X + (rayDirection maxDistance cosA sinA).X,
   light.Y + (rayDirection maxDistance cosA sinA).Y⟩

/-- The value of `end` passed to `DrawLineV` by one iteration of the ray loop
of `draw`, for the ray whose angle has cosine `cosA` and sine `sinA`. -/
def rayEnd (sqrt : F → F) (obstacles : List (Shape F)) (light : Circle F)
    (maxDistance cosA sinA : F) : Vector2 F :=
  let start := rayOrigin light cosA sinA
  let rayDir := rayDirection maxDistance cosA sinA
  let st := scan sqrt obstacles maxDistance start rayDir
  if st.hasCollision = true then st.closestPoint
  else fullLengthEnd light maxDistance cosA sinA

end Code

section Spec

variable {F : Type} [LinearOrderedField F]

/-- Exactness of the square-root routine: on a non-negative argument it
returns the non-negative square root. -/
def IsSqrt (sqrt : F → F) : Prop :=
  ∀ x : F, 0 ≤ x → 0 ≤ sqrt x ∧ sqrt x * sqrt x = x

/-- The planar cross product `a × b`. -/
def cross (a b : Vector2 F) : F := a.X * b.Y - a.Y * b.X

/-- The vector `B - A` from `A` to `B`. -/
def segDir (A B : Vector2 F) : Vector2 F := ⟨B.X - A.X, B.Y - A.Y⟩

/-- The point `origin + t * dir`. -/
def pointAt (origin dir : Vector2 F) (t : F) : Vector2 F :=
  ⟨origin.X + dir.X * t, origin.Y + dir.Y * t⟩

/-- The local variable `a` of `Circle.RayIntersection`: `|rayDir|²`. -/
def Circle.coeffA (rayDir : Vector2 F) : F :=
  rayDir.X * rayDir.X + rayDir.Y * rayDir.Y

/-- The local variable `b` of `Circle.RayIntersection`: `2 (oc · rayDir)`. -/
def Circle.coeffB (c : Circle F) (rayStart rayDir : Vector2 F) : F :=
  2 * ((rayStart.X - c.X) * rayDir.X + (rayStart.Y - c.Y) * rayDir.Y)

/-- The constant term `|oc|² - r²` of the quadratic of `Circle.RayIntersection`. -/
def Circle.coeffC (c : Circle F) (rayStart : Vector2 F) : F :=
  (rayStart.X - c.X) * (rayStart.X - c.X) + (rayStart.Y - c.Y) * (rayStart.Y - c.Y) -
    c.Radius * c.Radius

/-- The local variable `discriminant` of `Circle.RayIntersection`. -/
def Circle.discriminant (c : Circle F) (rayStart rayDir : Vector2 F) : F :=
  Circle.coeffB c rayStart rayDir * Circle.coeffB c rayStart rayDir -
    4 * Circle.coeffA rayDir * Circle.coeffC c rayStart

/-- The local variable `t` of `Circle.RayIntersection`, the near root
`(-b - √discriminant) / (2a)`. -/
def Circle.nearRoot (sqrt : F → F) (c : Circle F) (rayStart rayDir : Vector2 F) : F :=
  (-Circle.coeffB c rayStart rayDir - sqrt (Circle.discriminant c rayStart rayDir)) /
    (2 * Circle.coeffA rayDir)

/-- The quadratic `a t² + b t + (|oc|² - r²)` solved by `Circle.RayIntersection`. -/
def Circle.quadratic (c : Circle F) (rayStart rayDir : Vector2 F) (t : F) : F :=
  Circle.coeffA rayDir * t ^ 2 + Circle.coeffB c rayStart rayDir * t + Circle.coeffC c rayStart

/-- The point `p` lies on the boundary of the circle `c`:
`|p - center|² = r²`. -/
def Circle.OnBoundary (c : Circle F) (p : Vector2 F) : Prop :=
  (p.X - c.X) ^ 2 + (p.Y - c.Y) ^ 2 = c.Radius ^ 2

/-- The ray `origin + t * dir` meets the segment `A..B` at parameter `t`:
`t ≥ 0` and the point is `A + u * (B - A)` for some `u ∈ [0, 1]`. -/
def MeetsSegmentAt (origin dir A B : Vector2 F) (t : F) : Prop :=
  0 ≤ t ∧ ∃ u : F, 0 ≤ u ∧ u ≤ 1 ∧
    origin.X + t * dir.X = A.X + u * (B.X - A.X) ∧
    origin.Y + t * dir.Y = A.Y + u * (B.Y - A.Y)

/-- The result `(hit, intersection)` of the call
`obstacle.RayIntersection(start, rayDir)` made by `draw` for the ray with
cosine `cosA` and sine `sinA`. -/
def probe (sqrt : F → F) (light : Circle F) (maxDistance cosA sinA : F) (ob : Shape F) :
    Bool × Vector2 F :=
  ob.RayIntersection sqrt (rayOrigin light cosA sinA) (rayDirection maxDistance cosA sinA)

/-- The obstacle reports a hit for the ray, at a distance from the ray origin
below `maxDistance`. -/
def CloseHit (sqrt : F → F) (light : Circle F) (maxDistance cosA sinA : F) (ob : Shape F) :
    Prop :=
  (probe sqrt light maxDistance cosA sinA ob).1 = true ∧
    distance sqrt (rayOrigin light cosA sinA) (probe sqrt light maxDistance cosA sinA ob).2 <
      maxDistance

/-- The point `p` is the closest hit point of the ray: some obstacle of the
list reports a hit at `p`, and no obstacle of the list reports a hit whose
distance from the ray origin is smaller than that of `p`. -/
def IsClosestHit (sqrt : F → F) (obstacles : List (Shape F)) (light : Circle F)
    (maxDistance cosA sinA : F) (p : Vector2 F) : Prop :=
  (∃ ob ∈ obstacles, (probe sqrt light maxDistance cosA sinA ob).1 = true ∧
    p = (probe sqrt light maxDistance cosA sinA ob).2) ∧
  ∀ ob ∈ obstacles, (probe sqrt light maxDistance cosA sinA ob).1 = true →
    distance sqrt (rayOrigin light cosA sinA) p ≤
      distance sqrt (rayOrigin light cosA sinA) (probe sqrt light maxDistance cosA sinA ob).2

end Spec

section Scenes

/-- The colour of the walls of `createMap`. -/
def wallColor : RGBA := ⟨100, 100, 120, 255⟩

/-- The light of `main.go`: centre `(150, 150)`, radius `15`. -/
def lightCircle {F : Type} [LinearOrderedField F] : Circle F :=
  ⟨150, 150, 15, ⟨255, 255, 0, 255⟩⟩

/-- The Room-2 left wall of `createMap`, from `(450, 50)` to `(450, 200)`. -/
def room2LeftWall : Line ℚ := ⟨⟨450, 50⟩, ⟨450, 200⟩, wallColor, 8⟩

/-- The Room-1 right wall of `createMap`, from `(350, 300)` to `(350, 50)`. -/
def room1RightWall : Line ℚ := ⟨⟨350, 300⟩, ⟨350, 50⟩, wallColor, 8⟩

end Scenes

section Program

variable {F : Type} [LinearOrderedField F]

/-- The function `getMaxDistance()`; the window size `(w, h)` returned by
`getScreenSize()` is an input.  `w*w + h*h` is computed on Go `int` (64 bits)
from two 32-bit sizes, which cannot overflow; `sqrt` is the composite
`float32(math.Sqrt(float64(·)))` applied to it (the conversion to `float64` is
exact below `2^53`). -/
def getMaxDistance (sqrt : F → F) (w h : Int) : F :=
  sqrt ((w * w + h * h : Int) : F)

/-- The colour of the pillars of `createMap`. -/
def pillarColor : RGBA := ⟨80, 80, 100, 255⟩

/-- The colour of the furniture of `createMap`. -/
def furnitureColor : RGBA := ⟨120, 80, 60, 255⟩

/-- The obstacle registry built by `createMap`, in the order of the `append`
calls: 20 walls, then the pillars, then the furniture. -/
def createMap {F : Type} [LinearOrderedField F] : List (Shape F) :=
  [
    .line ⟨⟨50, 50⟩, ⟨1150, 50⟩, wallColor, 8⟩,
    .line ⟨⟨1150, 50⟩, ⟨1150, 750⟩, wallColor, 8⟩,
    .line ⟨⟨1150, 750⟩, ⟨50, 750⟩, wallColor, 8⟩,
    .line ⟨⟨50, 750⟩, ⟨50, 50⟩, wallColor, 8⟩,
    .line ⟨⟨50, 300⟩, ⟨350, 300⟩, wallColor, 8⟩,
    .line ⟨⟨350, 300⟩, ⟨350, 50⟩, wallColor, 8⟩,
    .line ⟨⟨450, 50⟩, ⟨450, 200⟩, wallColor, 8⟩,
    .line ⟨⟨450, 280⟩, ⟨450, 350⟩, wallColor, 8⟩,
    .line ⟨⟨450, 350⟩, ⟨750, 350⟩, wallColor, 8⟩,
    .line ⟨⟨750, 350⟩, ⟨750, 50⟩, wallColor, 8⟩,
    .line ⟨⟨850, 50⟩, ⟨850, 300⟩, wallColor, 8⟩,
    .line ⟨⟨850, 300⟩, ⟨1150, 300⟩, wallColor, 8⟩,
    .line ⟨⟨50, 450⟩, ⟨250, 450⟩, wallColor, 8⟩,
    .line ⟨⟨330, 450⟩, ⟨400, 450⟩, wallColor, 8⟩,
    .line ⟨⟨400, 450⟩, ⟨400, 750⟩, wallColor, 8⟩,
    .line ⟨⟨500, 500⟩, ⟨700, 500⟩, wallColor, 8⟩,
    .line ⟨⟨700, 500⟩, ⟨700, 750⟩, wallColor, 8⟩,
    .line ⟨⟨800, 750⟩, ⟨800, 550⟩, wallColor, 8⟩,
    .line ⟨⟨800, 470⟩, ⟨800, 400⟩, wallColor, 8⟩,
    .line ⟨⟨800, 400⟩, ⟨1150, 400⟩, wallColor, 8⟩,
    .circle ⟨250, 150, 30, pillarColor⟩,
    .circle ⟨600, 200, 35, pillarColor⟩,
    .circle ⟨950, 180, 40, pillarColor⟩,
    .circle ⟨200, 600, 45, pillarColor⟩,
    .circle ⟨550, 650, 30, pillarColor⟩,
    .rectangle ⟨900, 500, 80, 50, furnitureColor⟩,
    .rectangle ⟨150, 380, 60, 40, furnitureColor⟩ ]

/-- The shape is a `Circle`. -/
def Shape.isCircle : Shape F → Bool
  | .circle _ => true
  | _ => false

/-- The shape is a `Rectangle`. -/
def Shape.isRectangle : Shape F → Bool
  | .rectangle _ => true
  | _ => false

/-- The shape is a `Line`. -/
def Shape.isLine : Shape F → Bool
  | .line _ => true
  | _ => false

end Program

section OcclusionLoop

variable {F : Type} [LinearOrderedField F]

/-- One iteration of the occlusion loop on an obstacle that is not hit, or is
hit no closer than the current `closestDistance`, leaves the state unchanged. -/
theorem scanStep_keep (sqrt : F → F) (start rayDir : Vector2 F) (st : Scan F) (ob : Shape F)
    (h : ¬ ((ob.RayIntersection sqrt start rayDir).1 = true ∧
      distance sqrt start (ob.RayIntersection sqrt start rayDir).2 < st.closestDistance)) :
    scanStep sqrt start rayDir st ob = st := by
  unfold scanStep
  by_cases h1 : (ob.RayIntersection sqrt start rayDir).1 = true
  · have h2 : ¬ distance sqrt start (ob.RayIntersection sqrt start rayDir).2 < st.closestDistance :=
      fun h2 => h ⟨h1, h2⟩
    simp [h1, h2]
  · simp [h1]

/-- One iteration of the occlusion loop on an obstacle hit closer than the
current `closestDistance` records that hit. -/
theorem scanStep_take (sqrt : F → F) (start rayDir : Vector2 F) (st : Scan F) (ob : Shape F)
    (h1 : (ob.RayIntersection sqrt start rayDir).1 = true)
    (h2 : distance sqrt start (ob.RayIntersection sqrt start rayDir).2 < st.closestDistance) :
    scanStep sqrt start rayDir st ob =
      ⟨distance sqrt start (ob.RayIntersection sqrt start rayDir).2, true,
        (ob.RayIntersection sqrt start rayDir).2⟩ := by
  unfold scanStep
  simp [h1, h2]

/-- Invariant of the occlusion loop, from any state: either no obstacle of the
list beats the state and it is unchanged, or the final state records a hit of
the list that is strictly closer than the initial `closestDistance` and no
farther than any hit of the list. -/
theorem scan_foldl_spec (sqrt : F → F) (start rayDir : Vector2 F) (obs : List (Shape F)) :
    ∀ st : Scan F,
      (obs.foldl (scanStep sqrt start rayDir) st = st ∧
        ∀ ob ∈ obs, (ob.RayIntersection sqrt start rayDir).1 = true →
          st.closestDistance ≤ distance sqrt start (ob.RayIntersection sqrt start rayDir).2) ∨
      ((obs.foldl (scanStep sqrt start rayDir) st).hasCollision = true ∧
        (obs.foldl (scanStep sqrt start rayDir) st).closestDistance < st.closestDistance ∧
        (∃ ob ∈ obs, (ob.RayIntersection sqrt start rayDir).1 = true ∧
          (obs.foldl (scanStep sqrt start rayDir) st).closestPoint =
            (ob.RayIntersection sqrt start rayDir).2 ∧
          (obs.foldl (scanStep sqrt start rayDir) st).closestDistance =
            distance sqrt start (ob.RayIntersection sqrt start rayDir).2) ∧
        ∀ ob ∈ obs, (ob.RayIntersection sqrt start rayDir).1 = true →
          (obs.foldl (scanStep sqrt start rayDir) st).closestDistance ≤
            distance sqrt start (ob.RayIntersection sqrt start rayDir).2) := by
  induction obs with
  | nil => intro st; left; simp
  | cons ob rest ih =>
    intro st
    rw [List.foldl_cons]
    by_cases h : (ob.RayIntersection sqrt start rayDir).1 = true ∧
        distance sqrt start (ob.RayIntersection sqrt start rayDir).2 < st.closestDistance
    · have hstep := scanStep_take sqrt start rayDir st ob h.1 h.2
      rw [hstep]
      right
      rcases ih ⟨distance sqrt start (ob.RayIntersection sqrt start rayDir).2, true,
          (ob.RayIntersection sqrt start rayDir).2⟩ with ⟨heq, hall⟩ | ⟨hc, hlt, ⟨o, ho, h1, h2, h3⟩, hall⟩
      · rw [heq]
        refine ⟨rfl, h.2, ⟨ob, List.mem_cons_self _ _, h.1, rfl, rfl⟩, ?_⟩
        intro o ho hhit
        rcases List.mem_cons.1 ho with rfl | ho
        · exact le_refl _
        · exact hall o ho hhit
      · refine ⟨hc, lt_trans hlt h.2, ⟨o, List.mem_cons_of_mem _ ho, h1, h2, h3⟩, ?_⟩
        intro o2 ho2 hhit
        rcases List.mem_cons.1 ho2 with rfl | ho2
        · exact le_of_lt hlt
        · exact hall o2 ho2 hhit
    · have hstep := scanStep_keep sqrt start rayDir st ob h
      rw [hstep]
      have hob : (ob.RayIntersection sqrt start rayDir).1 = true →
          st.closestDistance ≤ distance sqrt start (ob.RayIntersection sqrt start rayDir).2 :=
        fun h1 => not_lt.1 (fun h2 => h ⟨h1, h2⟩)
      rcases ih st with ⟨heq, hall⟩ | ⟨hc, hlt, ⟨o, ho, h1, h2, h3⟩, hall⟩
      · left
        refine ⟨heq, ?_⟩
        intro o ho hhit
        rcases List.mem_cons.1 ho with rfl | ho
        · exact hob hhit
        · exact hall o ho hhit
      · right
        refine ⟨hc, hlt, ⟨o, List.mem_cons_of_mem _ ho, h1, h2, h3⟩, ?_⟩
        intro o2 ho2 hhit
        rcases List.mem_cons.1 ho2 with rfl | ho2
        · exact le_trans (le_of_lt hlt) (hob hhit)
        · exact hall o2 ho2 hhit

/-- When some obstacle reports a hit closer than `maxDistance`, the endpoint is
a reported hit point and no reported hit point is closer to the ray origin. -/
theorem rayEnd_of_close_hit (sqrt : F → F) (obstacles : List (Shape F)) (light : Circle F)
    (maxDistance cosA sinA : F)
    (h : ∃ ob ∈ obstacles,
      (ob.RayIntersection sqrt (rayOrigin light cosA sinA)
        (rayDirection maxDistance cosA sinA)).1 = true ∧
      distance sqrt (rayOrigin light cosA sinA)
        (ob.RayIntersection sqrt (rayOrigin light cosA sinA)
          (rayDirection maxDistance cosA sinA)).2 < maxDistance) :
    (∃ ob ∈ obstacles,
      (ob.RayIntersection sqrt (rayOrigin light cosA sinA)
        (rayDirection maxDistance cosA sinA)).1 = true ∧
      rayEnd sqrt obstacles light maxDistance cosA sinA =
        (ob.RayIntersection sqrt (rayOrigin light cosA sinA)
          (rayDirection maxDistance cosA sinA)).2) ∧
    ∀ ob ∈ obstacles,
      (ob.RayIntersection sqrt (rayOrigin light cosA sinA)
        (rayDirection maxDistance cosA sinA)).1 = true →
      distance sqrt (rayOrigin light cosA sinA)
          (rayEnd sqrt obstacles light maxDistance cosA sinA) ≤
        distance sqrt (rayOrigin light cosA sinA)
          (ob.RayIntersection sqrt (rayOrigin light cosA sinA)
            (rayDirection maxDistance cosA sinA)).2 := by
  obtain ⟨ob0, hmem0, hhit0, hd0⟩ := h
  rcases scan_foldl_spec sqrt (rayOrigin light cosA sinA)
      (rayDirection maxDistance cosA sinA) obstacles ⟨maxDistance, false, ⟨0, 0⟩⟩ with
    ⟨_, hall⟩ | ⟨hc, _, ⟨o, ho, h1, h2, h3⟩, hall⟩
  · exact absurd hd0 (not_lt.2 (hall ob0 hmem0 hhit0))
  · have hend : rayEnd sqrt obstacles light maxDistance cosA sinA =
        (o.RayIntersection sqrt (rayOrigin light cosA sinA)
          (rayDirection maxDistance cosA sinA)).2 := by
      unfold rayEnd scan
      simp only [hc, if_true]
      exact h2
    refine ⟨⟨o, ho, h1, hend⟩, ?_⟩
    intro ob hob hhit
    rw [hend, ← h3]
    exact hall ob hob hhit

/-- When no obstacle reports a hit closer than `maxDistance`, the endpoint is
the full-length endpoint. -/
theorem rayEnd_of_no_close_hit (sqrt : F → F) (obstacles : List (Shape F))
    (light : Circle F) (maxDistance cosA sinA : F)
    (h : ¬ ∃ ob ∈ obstacles,
      (ob.RayIntersection sqrt (rayOrigin light cosA sinA)
        (rayDirection maxDistance cosA sinA)).1 = true ∧
      distance sqrt (rayOrigin light cosA sinA)
        (ob.RayIntersection sqrt (rayOrigin light cosA sinA)
          (rayDirection maxDistance cosA sinA)).2 < maxDistance) :
    rayEnd sqrt obstacles light maxDistance cosA sinA =
      fullLengthEnd light maxDistance cosA sinA := by
  rcases scan_foldl_spec sqrt (rayOrigin light cosA sinA)
      (rayDirection maxDistance cosA sinA) obstacles ⟨maxDistance, false, ⟨0, 0⟩⟩ with
    ⟨heq, _⟩ | ⟨_, hlt, ⟨o, ho, h1, _, h3⟩, _⟩
  · simp only [rayEnd, scan, heq]
    simp
  · exact absurd ⟨o, ho, h1, by rw [← h3]; exact hlt⟩ h

end OcclusionLoop

section Evaluation

theorem sqrt_34225 : Rat.sqrt 34225 = 185 := by
  rw [show (34225 : ℚ) = 185 * 185 by norm_num, Rat.sqrt_eq]; norm_num

theorem sqrt_81225 : Rat.sqrt 81225 = 285 := by
  rw [show (81225 : ℚ) = 285 * 285 by norm_num, Rat.sqrt_eq]; norm_num

/-- The ray at angle 0 from the light of `main.go` with `maxDistance = 1000`
meets the Room-1 right wall at `(350, 150)`. -/
theorem room1RightWall_hit :
    (Shape.line room1RightWall).RayIntersection Rat.sqrt (rayOrigin lightCircle 1 0)
      (rayDirection 1000 1 0) = (true, ⟨350, 150⟩) := by
  norm_num [Shape.RayIntersection, Line.RayIntersection, rayLineIntersection, rayOrigin,
    rayDirection, lightCircle, room1RightWall, abs_lt]

/-- The ray at angle 0 from the light of `main.go` with `maxDistance = 1000`
meets the Room-2 left wall at `(450, 150)`. -/
theorem room2LeftWall_hit :
    (Shape.line room2LeftWall).RayIntersection Rat.sqrt (rayOrigin lightCircle 1 0)
      (rayDirection 1000 1 0) = (true, ⟨450, 150⟩) := by
  norm_num [Shape.RayIntersection, Line.RayIntersection, rayLineIntersection, rayOrigin,
    rayDirection, lightCircle, room2LeftWall, abs_lt]

/-- The ray at angle 0 from the light of `main.go` with `maxDistance = 100`
meets the Room-2 left wall at `(450, 150)`, beyond its own length. -/
theorem room2LeftWall_hit_short :
    (Shape.line room2LeftWall).RayIntersection Rat.sqrt (rayOrigin lightCircle 1 0)
      (rayDirection 100 1 0) = (true, ⟨450, 150⟩) := by
  norm_num [Shape.RayIntersection, Line.RayIntersection, rayLineIntersection, rayOrigin,
    rayDirection, lightCircle, room2LeftWall, abs_lt]

theorem distance_room1 :
    distance Rat.sqrt (rayOrigin lightCircle 1 0) (⟨350, 150⟩ : Vector2 ℚ) = 185 := by
  norm_num [distance, rayOrigin, lightCircle, sqrt_34225]

theorem distance_room2 :
    distance Rat.sqrt (rayOrigin lightCircle 1 0) (⟨450, 150⟩ : Vector2 ℚ) = 285 := by
  norm_num [distance, rayOrigin, lightCircle, sqrt_81225]

end Evaluation

section OcclusionClaims

variable {F : Type} [LinearOrderedField F]

/-- C1. Closest-hit selection in the occlusion loop of `draw`: for every
obstacle list, light and ray, if some obstacle of the list reports a hit whose
distance from the ray origin is below `maxDistance`, then the endpoint of the
ray is one of the reported hit points and its distance from the ray origin is
at most the distance of every hit point reported by an obstacle of the list. -/
theorem rayEnd_closest_hit (sqrt : F → F) (obstacles : List (Shape F)) (light : Circle F)
    (maxDistance cosA sinA : F)
    (h : ∃ ob ∈ obstacles, CloseHit sqrt light maxDistance cosA sinA ob) :
    IsClosestHit sqrt obstacles light maxDistance cosA sinA
      (rayEnd sqrt obstacles light maxDistance cosA sinA) :=
  rayEnd_of_close_hit sqrt obstacles light maxDistance cosA sinA h

/-- C1 at a concrete scene: the light of `main.go`, `maxDistance = 1000`, the
ray at angle 0 and the two walls at `x = 450` and `x = 350`; the hypothesis
holds through the wall at `x = 450`, hit at distance 285. -/
theorem rayEnd_closest_hit_witness :
    IsClosestHit Rat.sqrt [Shape.line room2LeftWall, Shape.line room1RightWall] lightCircle
      1000 1 0
      (rayEnd Rat.sqrt [Shape.line room2LeftWall, Shape.line room1RightWall] lightCircle
        1000 1 0) :=
  rayEnd_closest_hit Rat.sqrt [Shape.line room2LeftWall, Shape.line room1RightWall] lightCircle
    1000 1 0
    ⟨Shape.line room2LeftWall, by simp, by
      unfold CloseHit probe
      rw [room2LeftWall_hit, distance_room2]
      norm_num⟩

/-- C2, refuted as stated: light of `main.go`, `maxDistance = 100`, ray at
angle 0, and the Room-2 left wall as only obstacle.  The wall reports a hit at
`(450, 150)`, 285 away from the ray origin, yet the endpoint is the
full-length endpoint `(250, 150)` and not the hit point. -/
theorem rayEnd_far_hit_ignored :
    ¬ ((∃ ob ∈ [Shape.line room2LeftWall], (probe Rat.sqrt lightCircle 100 1 0 ob).1 = true) →
        IsClosestHit Rat.sqrt [Shape.line room2LeftWall] lightCircle 100 1 0
          (rayEnd Rat.sqrt [Shape.line room2LeftWall] lightCircle 100 1 0)) ∧
    ¬ (rayEnd Rat.sqrt [Shape.line room2LeftWall] lightCircle 100 1 0 =
          fullLengthEnd lightCircle 100 1 0 ↔
        ¬ ∃ ob ∈ [Shape.line room2LeftWall],
          (probe Rat.sqrt lightCircle 100 1 0 ob).1 = true) := by
  have hhit : (probe Rat.sqrt lightCircle 100 1 0 (Shape.line room2LeftWall)) =
      (true, ⟨450, 150⟩) := room2LeftWall_hit_short
  have hex : ∃ ob ∈ [Shape.line room2LeftWall],
      (probe Rat.sqrt lightCircle 100 1 0 ob).1 = true :=
    ⟨Shape.line room2LeftWall, by simp, by rw [hhit]⟩
  have hend : rayEnd Rat.sqrt [Shape.line room2LeftWall] lightCircle 100 1 0 =
      fullLengthEnd lightCircle 100 1 0 := by
    apply rayEnd_of_no_close_hit
    rintro ⟨ob, hob, _, hd⟩
    rw [List.mem_singleton] at hob
    subst hob
    rw [room2LeftWall_hit_short, distance_room2] at hd
    norm_num at hd
  constructor
  · intro h
    obtain ⟨⟨ob, hob, _, hp⟩, _⟩ := h hex
    rw [List.mem_singleton] at hob
    subst hob
    rw [hend, hhit] at hp
    norm_num [fullLengthEnd, rayDirection, lightCircle] at hp
  · intro h
    exact h.1 hend hex

/-- C2, amended: for every obstacle list, light and ray, the endpoint is the
closest hit point whenever some obstacle reports a hit whose distance from the
ray origin is below `maxDistance`, and it is the full-length endpoint
(light centre plus `rayDir`) whenever no obstacle reports such a hit. -/
theorem rayEnd_closest_or_full (sqrt : F → F) (obstacles : List (Shape F)) (light : Circle F)
    (maxDistance cosA sinA : F) :
    ((∃ ob ∈ obstacles, CloseHit sqrt light maxDistance cosA sinA ob) →
      IsClosestHit sqrt obstacles light maxDistance cosA sinA
        (rayEnd sqrt obstacles light maxDistance cosA sinA)) ∧
    ((¬ ∃ ob ∈ obstacles, CloseHit sqrt light maxDistance cosA sinA ob) →
      rayEnd sqrt obstacles light maxDistance cosA sinA =
        fullLengthEnd light maxDistance cosA sinA) :=
  ⟨rayEnd_of_close_hit sqrt obstacles light maxDistance cosA sinA,
    rayEnd_of_no_close_hit sqrt obstacles light maxDistance cosA sinA⟩

end OcclusionClaims

section SegmentTest

variable {F : Type} [LinearOrderedField F]

/-- The value `dot` computed by `rayLineIntersection` is the cross product of
the ray direction with the segment vector. -/
theorem dot_eq_cross (d A B : Vector2 F) :
    (B.X - A.X) * (-d.Y) + (B.Y - A.Y) * d.X = cross d (segDir A B) := by
  simp only [cross, segDir]; ring

/-- Below the tolerance `rayLineIntersection` returns `(false, 0)`. -/
theorem rayLineIntersection_parallel (O d A B : Vector2 F)
    (h : |cross d (segDir A B)| < 1 / 1000000) :
    rayLineIntersection O d A B = (false, 0) := by
  rw [← dot_eq_cross] at h
  simp only [rayLineIntersection]
  rw [if_pos h]

/-- With a non-zero cross product, the two linear equations of the
intersection have exactly the solution computed by `rayLineIntersection`. -/
theorem segment_equations_iff (O d A B : Vector2 F) (t u : F)
    (hD : (B.X - A.X) * (-d.Y) + (B.Y - A.Y) * d.X ≠ 0) :
    (O.X + t * d.X = A.X + u * (B.X - A.X) ∧ O.Y + t * d.Y = A.Y + u * (B.Y - A.Y)) ↔
    (t = ((B.X - A.X) * (O.Y - A.Y) - (B.Y - A.Y) * (O.X - A.X)) /
          ((B.X - A.X) * (-d.Y) + (B.Y - A.Y) * d.X) ∧
     u = ((O.X - A.X) * (-d.Y) + (O.Y - A.Y) * d.X) /
          ((B.X - A.X) * (-d.Y) + (B.Y - A.Y) * d.X)) := by
  constructor
  · rintro ⟨hx, hy⟩
    constructor
    · rw [eq_div_iff hD]
      linear_combination (B.Y - A.Y) * hx - (B.X - A.X) * hy
    · rw [eq_div_iff hD]
      linear_combination d.Y * hx - d.X * hy
  · rintro ⟨ht, hu⟩
    rw [eq_div_iff hD] at ht hu
    constructor
    · have : ((B.X - A.X) * (-d.Y) + (B.Y - A.Y) * d.X) *
          (O.X + t * d.X - (A.X + u * (B.X - A.X))) = 0 := by
        linear_combination d.X * ht - (B.X - A.X) * hu
      rcases mul_eq_zero.1 this with h0 | h0
      · exact absurd h0 hD
      · linear_combination h0
    · have : ((B.X - A.X) * (-d.Y) + (B.Y - A.Y) * d.X) *
          (O.Y + t * d.Y - (A.Y + u * (B.Y - A.Y))) = 0 := by
        linear_combination d.Y * ht - (B.Y - A.Y) * hu
      rcases mul_eq_zero.1 this with h0 | h0
      · exact absurd h0 hD
      · linear_combination h0

/-- At or above the tolerance, `rayLineIntersection` returns `(true, t)`
exactly for the parameter `t` at which the ray meets the segment. -/
theorem rayLineIntersection_true_iff (O d A B : Vector2 F)
    (h : 1 / 1000000 ≤ |cross d (segDir A B)|) (t : F) :
    rayLineIntersection O d A B = (true, t) ↔ MeetsSegmentAt O d A B t := by
  rw [← dot_eq_cross] at h
  have hD : (B.X - A.X) * (-d.Y) + (B.Y - A.Y) * d.X ≠ 0 := by
    intro h0
    rw [h0, abs_zero] at h
    norm_num at h
  have hn : ¬ |(B.X - A.X) * (-d.Y) + (B.Y - A.Y) * d.X| < 1 / 1000000 := not_lt.2 h
  simp only [rayLineIntersection]
  rw [if_neg hn]
  constructor
  · intro hres
    split_ifs at hres with hc
    · have ht : ((B.X - A.X) * (O.Y - A.Y) - (B.Y - A.Y) * (O.X - A.X)) /
          ((B.X - A.X) * (-d.Y) + (B.Y - A.Y) * d.X) = t := (Prod.mk.inj hres).2
      refine ⟨ht ▸ hc.1, _, hc.2.1, hc.2.2, ?_⟩
      exact (segment_equations_iff O d A B t _ hD).2 ⟨ht.symm, rfl⟩
    · simp at hres
  · rintro ⟨ht0, u, hu0, hu1, hx, hy⟩
    obtain ⟨ht, hu⟩ := (segment_equations_iff O d A B t u hD).1 ⟨hx, hy⟩
    rw [← ht, ← hu]
    rw [if_pos ⟨ht0, hu0, hu1⟩]

/-- The helper `rayLineIntersection` returns `(false, 0)` or `(true, t)`. -/
theorem rayLineIntersection_cases (O d A B : Vector2 F) :
    rayLineIntersection O d A B = (false, 0) ∨
      ∃ t, rayLineIntersection O d A B = (true, t) := by
  simp only [rayLineIntersection]
  split_ifs
  · exact Or.inl rfl
  · exact Or.inr ⟨_, rfl⟩
  · exact Or.inl rfl

end SegmentTest

section LineShape

variable {F : Type} [LinearOrderedField F]

/-- A hit of `rayLineIntersection` needs a non-zero ray direction. -/
theorem dir_ne_zero_of_hit (O d A B : Vector2 F) (t : F)
    (h : rayLineIntersection O d A B = (true, t)) : d.X ≠ 0 ∨ d.Y ≠ 0 := by
  by_contra hd
  push_neg at hd
  have hp : |cross d (segDir A B)| < 1 / 1000000 := by
    simp only [cross, hd.1, hd.2, zero_mul, sub_zero, abs_zero]
    norm_num
  rw [rayLineIntersection_parallel O d A B hp] at h
  simp at h

/-- C10. For every `Line` and ray, `Line.RayIntersection` returns
`(true, origin + t*dir)` exactly when
`rayLineIntersection(origin, dir, Start, End)` returns `(true, t)`, and no-hit
`(false, (0, 0))` otherwise; consequently two `Line`s with the same endpoints
give the same result for every ray, whatever their `Thickness` and `Color`. -/
theorem line_rayIntersection_spec (l : Line F) (origin dir : Vector2 F) :
    (∀ t : F, l.RayIntersection origin dir = (true, pointAt origin dir t) ↔
      rayLineIntersection origin dir l.Start l.End = (true, t)) ∧
    ((¬ ∃ t : F, rayLineIntersection origin dir l.Start l.End = (true, t)) →
      l.RayIntersection origin dir = (false, ⟨0, 0⟩)) ∧
    (∀ l2 : Line F, l2.Start = l.Start → l2.End = l.End →
      l2.RayIntersection origin dir = l.RayIntersection origin dir) := by
  refine ⟨?_, ?_, ?_⟩
  · intro t
    constructor
    · intro h
      rcases rayLineIntersection_cases origin dir l.Start l.End with h0 | ⟨t2, ht2⟩
      · simp [Line.RayIntersection, h0] at h
      · have hd := dir_ne_zero_of_hit origin dir l.Start l.End t2 ht2
        simp only [Line.RayIntersection, ht2, if_true, pointAt, Prod.mk.injEq, true_and,
          Vector2.mk.injEq, add_right_inj] at h
        rcases hd with hx | hy
        · rw [mul_left_cancel₀ hx h.1] at ht2
          exact ht2
        · rw [mul_left_cancel₀ hy h.2] at ht2
          exact ht2
    · intro ht
      simp [Line.RayIntersection, ht, pointAt]
  · intro hno
    rcases rayLineIntersection_cases origin dir l.Start l.End with h0 | ⟨t2, ht2⟩
    · simp [Line.RayIntersection, h0]
    · exact absurd ⟨t2, ht2⟩ hno
  · intro l2 hs he
    simp only [Line.RayIntersection, hs, he]

end LineShape

section CircleShape

variable {F : Type} [LinearOrderedField F]

/-- The square root on the reals is exact. -/
theorem isSqrt_real : IsSqrt Real.sqrt :=
  fun x hx => ⟨Real.sqrt_nonneg x, Real.mul_self_sqrt hx⟩

/-- An exact square root returns `y` on `y * y` for `y ≥ 0`. -/
theorem IsSqrt.eq_of_mul_self {sqrt : F → F} (hs : IsSqrt sqrt) {x y : F} (hy : 0 ≤ y)
    (hx : x = y * y) : sqrt x = y := by
  have hx0 : 0 ≤ x := hx ▸ mul_self_nonneg y
  obtain ⟨h0, h1⟩ := hs x hx0
  exact (mul_self_inj h0 hy).1 (h1.trans hx)

/-- The body of `Circle.RayIntersection` in terms of its local variables. -/
theorem Circle.RayIntersection_eq (sqrt : F → F) (c : Circle F) (O d : Vector2 F) :
    c.RayIntersection sqrt O d =
      if Circle.discriminant c O d < 0 then (false, ⟨0, 0⟩)
      else if Circle.nearRoot sqrt c O d < 0 then (false, ⟨0, 0⟩)
      else (true, pointAt O d (Circle.nearRoot sqrt c O d)) := rfl

/-- A reported hit: the discriminant and the near root are non-negative and
the point is the one at the near root. -/
theorem Circle.hit_inv (sqrt : F → F) (c : Circle F) (O d P : Vector2 F)
    (h : c.RayIntersection sqrt O d = (true, P)) :
    0 ≤ Circle.discriminant c O d ∧ 0 ≤ Circle.nearRoot sqrt c O d ∧
      P = pointAt O d (Circle.nearRoot sqrt c O d) := by
  rw [Circle.RayIntersection_eq] at h
  split_ifs at h with h1 h2
  · simp at h
  · simp at h
  · exact ⟨not_lt.1 h1, not_lt.1 h2, ((Prod.mk.inj h).2).symm⟩

/-- A non-zero direction gives `a > 0`. -/
theorem Circle.coeffA_pos (d : Vector2 F) (hd : d.X ≠ 0 ∨ d.Y ≠ 0) : 0 < Circle.coeffA d := by
  unfold Circle.coeffA
  rcases hd with h | h
  · have := mul_self_pos.2 h
    have := mul_self_nonneg d.Y
    linarith
  · have := mul_self_pos.2 h
    have := mul_self_nonneg d.X
    linarith

/-- The point at parameter `t` is on the circle exactly when `t` is a root of
the quadratic. -/
theorem Circle.onBoundary_iff (c : Circle F) (O d : Vector2 F) (t : F) :
    c.OnBoundary (pointAt O d t) ↔ Circle.quadratic c O d t = 0 := by
  unfold Circle.OnBoundary Circle.quadratic Circle.coeffA Circle.coeffB Circle.coeffC pointAt
  constructor
  · intro h; linear_combination h
  · intro h; linear_combination h

/-- With an exact square root and `a > 0`, the near root satisfies
`2 a t = -b - √discriminant`. -/
theorem Circle.two_a_nearRoot (sqrt : F → F) (c : Circle F) (O d : Vector2 F)
    (ha : 0 < Circle.coeffA d) :
    2 * Circle.coeffA d * Circle.nearRoot sqrt c O d =
      -Circle.coeffB c O d - sqrt (Circle.discriminant c O d) := by
  unfold Circle.nearRoot
  field_simp

/-- Factorisation of the quadratic at the near root `t`:
`q(t') = (t' - t) (a (t' - t) - √discriminant)`. -/
theorem Circle.quadratic_factor (sqrt : F → F) (hs : IsSqrt sqrt) (c : Circle F)
    (O d : Vector2 F) (ha : 0 < Circle.coeffA d) (hdisc : 0 ≤ Circle.discriminant c O d)
    (t' : F) :
    Circle.quadratic c O d t' =
      (t' - Circle.nearRoot sqrt c O d) *
        (Circle.coeffA d * (t' - Circle.nearRoot sqrt c O d) -
          sqrt (Circle.discriminant c O d)) := by
  have ht := Circle.two_a_nearRoot sqrt c O d ha
  have hs2 := (hs _ hdisc).2
  have hs3 : sqrt (Circle.discriminant c O d) * sqrt (Circle.discriminant c O d) =
      Circle.coeffB c O d * Circle.coeffB c O d -
        4 * Circle.coeffA d * Circle.coeffC c O := hs2
  have key : 4 * Circle.coeffA d * (Circle.quadratic c O d t' -
      (t' - Circle.nearRoot sqrt c O d) *
        (Circle.coeffA d * (t' - Circle.nearRoot sqrt c O d) -
          sqrt (Circle.discriminant c O d))) = 0 := by
    unfold Circle.quadratic
    linear_combination (4 * Circle.coeffA d * t' + Circle.coeffB c O d -
      2 * Circle.coeffA d * Circle.nearRoot sqrt c O d -
      sqrt (Circle.discriminant c O d)) * ht + hs3
  have h4 : 4 * Circle.coeffA d ≠ 0 := by positivity
  have := (mul_eq_zero.1 key).resolve_left h4
  linear_combination this

/-- Evaluation of `Circle.RayIntersection` when the discriminant is the
square of a known `s ≥ 0` and the near root `(-b - s) / (2a)` is non-negative. -/
theorem Circle.RayIntersection_of_sq (sqrt : F → F) (hs : IsSqrt sqrt) (c : Circle F)
    (O d : Vector2 F) (s t : F) (hs0 : 0 ≤ s) (hdisc : Circle.discriminant c O d = s * s)
    (ht : t = (-Circle.coeffB c O d - s) / (2 * Circle.coeffA d)) (ht0 : 0 ≤ t) :
    c.RayIntersection sqrt O d = (true, pointAt O d t) := by
  have hsq : sqrt (Circle.discriminant c O d) = s := hs.eq_of_mul_self hs0 hdisc
  have hn : Circle.nearRoot sqrt c O d = t := by
    unfold Circle.nearRoot
    rw [hsq, ht]
  have h1 : ¬ Circle.discriminant c O d < 0 := by
    rw [hdisc]; exact not_lt.2 (mul_self_nonneg s)
  rw [Circle.RayIntersection_eq, if_neg h1, hn, if_neg (not_lt.2 ht0)]

end CircleShape

section RectangleShape

variable {F : Type} [LinearOrderedField F]

/-- The edge loop step ignores an edge that is missed or hit at a `t` not
below the current `closestT`. -/
theorem edgeStep_keep (O d : Vector2 F) (acc : F × Bool) (e : Vector2 F × Vector2 F)
    (h : ¬ ((rayLineIntersection O d e.1 e.2).1 = true ∧
      (rayLineIntersection O d e.1 e.2).2 < acc.1)) :
    Rectangle.edgeStep O d acc e = acc := by
  unfold Rectangle.edgeStep
  simp only [if_neg h]

/-- The edge loop step records an edge hit at a `t` below the current
`closestT`. -/
theorem edgeStep_take (O d : Vector2 F) (acc : F × Bool) (e : Vector2 F × Vector2 F)
    (h : (rayLineIntersection O d e.1 e.2).1 = true ∧
      (rayLineIntersection O d e.1 e.2).2 < acc.1) :
    Rectangle.edgeStep O d acc e = ((rayLineIntersection O d e.1 e.2).2, true) := by
  unfold Rectangle.edgeStep
  simp only [if_pos h]

/-- Invariant of the edge loop of `Rectangle.RayIntersection`, from any state
`(closestT, hasHit)`: either no edge of the list is hit below `closestT` and
the state is unchanged, or the final state has `hasHit` set and its `closestT`
is the `t` of a hit edge, below the initial `closestT` and at most the `t` of
every hit edge of the list. -/
theorem edge_foldl_spec (O d : Vector2 F) (es : List (Vector2 F × Vector2 F)) :
    ∀ acc : F × Bool,
      (es.foldl (Rectangle.edgeStep O d) acc = acc ∧
        ∀ e ∈ es, (rayLineIntersection O d e.1 e.2).1 = true →
          acc.1 ≤ (rayLineIntersection O d e.1 e.2).2) ∨
      ((es.foldl (Rectangle.edgeStep O d) acc).2 = true ∧
        (es.foldl (Rectangle.edgeStep O d) acc).1 < acc.1 ∧
        (∃ e ∈ es, (rayLineIntersection O d e.1 e.2).1 = true ∧
          (es.foldl (Rectangle.edgeStep O d) acc).1 = (rayLineIntersection O d e.1 e.2).2) ∧
        ∀ e ∈ es, (rayLineIntersection O d e.1 e.2).1 = true →
          (es.foldl (Rectangle.edgeStep O d) acc).1 ≤ (rayLineIntersection O d e.1 e.2).2) := by
  induction es with
  | nil => intro acc; left; simp
  | cons e rest ih =>
    intro acc
    rw [List.foldl_cons]
    by_cases h : (rayLineIntersection O d e.1 e.2).1 = true ∧
        (rayLineIntersection O d e.1 e.2).2 < acc.1
    · rw [edgeStep_take O d acc e h]
      right
      rcases ih ((rayLineIntersection O d e.1 e.2).2, true) with
        ⟨heq, hall⟩ | ⟨hc, hlt, ⟨o, ho, h1, h2⟩, hall⟩
      · rw [heq]
        refine ⟨rfl, h.2, ⟨e, List.mem_cons_self _ _, h.1, rfl⟩, ?_⟩
        intro o ho hhit
        rcases List.mem_cons.1 ho with rfl | ho
        · exact le_refl _
        · exact hall o ho hhit
      · refine ⟨hc, lt_trans hlt h.2, ⟨o, List.mem_cons_of_mem _ ho, h1, h2⟩, ?_⟩
        intro o2 ho2 hhit
        rcases List.mem_cons.1 ho2 with rfl | ho2
        · exact le_of_lt hlt
        · exact hall o2 ho2 hhit
    · rw [edgeStep_keep O d acc e h]
      have hob : (rayLineIntersection O d e.1 e.2).1 = true →
          acc.1 ≤ (rayLineIntersection O d e.1 e.2).2 :=
        fun h1 => not_lt.1 (fun h2 => h ⟨h1, h2⟩)
      rcases ih acc with ⟨heq, hall⟩ | ⟨hc, hlt, ⟨o, ho, h1, h2⟩, hall⟩
      · left
        refine ⟨heq, ?_⟩
        intro o ho hhit
        rcases List.mem_cons.1 ho with rfl | ho
        · exact hob hhit
        · exact hall o ho hhit
      · right
        refine ⟨hc, hlt, ⟨o, List.mem_cons_of_mem _ ho, h1, h2⟩, ?_⟩
        intro o2 ho2 hhit
        rcases List.mem_cons.1 ho2 with rfl | ho2
        · exact le_trans (le_of_lt hlt) (hob hhit)
        · exact hall o2 ho2 hhit

/-- The two outcomes of `Rectangle.RayIntersection`: no-hit, with every hit
edge at `t ≥ MaxFloat32`; or a hit at `origin + tmin*dir` with `tmin` below
`MaxFloat32`, the `t` of a hit edge and at most the `t` of every hit edge. -/
theorem Rectangle.RayIntersection_cases (r : Rectangle F) (O d : Vector2 F) :
    (r.RayIntersection O d = (false, ⟨0, 0⟩) ∧
      ∀ e ∈ r.edges, (rayLineIntersection O d e.1 e.2).1 = true →
        MaxFloat32 ≤ (rayLineIntersection O d e.1 e.2).2) ∨
    (∃ tmin : F, r.RayIntersection O d = (true, pointAt O d tmin) ∧ tmin < MaxFloat32 ∧
      (∃ e ∈ r.edges, (rayLineIntersection O d e.1 e.2).1 = true ∧
        tmin = (rayLineIntersection O d e.1 e.2).2) ∧
      ∀ e ∈ r.edges, (rayLineIntersection O d e.1 e.2).1 = true →
        tmin ≤ (rayLineIntersection O d e.1 e.2).2) := by
  rcases edge_foldl_spec O d r.edges (MaxFloat32, false) with
    ⟨heq, hall⟩ | ⟨hc, hlt, hex, hall⟩
  · left
    refine ⟨?_, hall⟩
    simp only [Rectangle.RayIntersection, heq]
    simp
  · right
    refine ⟨_, ?_, hlt, hex, hall⟩
    simp only [Rectangle.RayIntersection, hc, if_true, pointAt]

/-- A result of `rayLineIntersection` with first component `true` and second
component `t` is the pair `(true, t)`. -/
theorem rayLine_eq_of_fst_snd (O d A B : Vector2 F) (t : F)
    (h1 : (rayLineIntersection O d A B).1 = true) (h2 : t = (rayLineIntersection O d A B).2) :
    rayLineIntersection O d A B = (true, t) :=
  Prod.ext h1 h2.symm

/-- C8. For every rectangle and ray, when `Rectangle.RayIntersection` reports
a hit, the returned point is `origin + tmin*dir` where `tmin` is the minimum
of the `t` values returned by `rayLineIntersection` over the edges (top, right,
bottom, left) it hits.  In particular, when exactly one edge is hit the point
is that edge's intersection, and when two edges are hit it is the one with
the smaller `t`. -/
theorem rectangle_hit_min_t (r : Rectangle F) (O d P : Vector2 F)
    (h : r.RayIntersection O d = (true, P)) :
    (∃ tmin : F, P = pointAt O d tmin ∧
      (∃ e ∈ r.edges, rayLineIntersection O d e.1 e.2 = (true, tmin)) ∧
      ∀ e ∈ r.edges, ∀ t : F, rayLineIntersection O d e.1 e.2 = (true, t) → tmin ≤ t) ∧
    (∀ e ∈ r.edges, ∀ t : F, rayLineIntersection O d e.1 e.2 = (true, t) →
      (∀ e2 ∈ r.edges, e2 ≠ e → (rayLineIntersection O d e2.1 e2.2).1 = false) →
      P = pointAt O d t) ∧
    (∀ e1 ∈ r.edges, ∀ e2 ∈ r.edges, ∀ t1 t2 : F,
      rayLineIntersection O d e1.1 e1.2 = (true, t1) →
      rayLineIntersection O d e2.1 e2.2 = (true, t2) →
      (∀ e3 ∈ r.edges, e3 ≠ e1 → e3 ≠ e2 → (rayLineIntersection O d e3.1 e3.2).1 = false) →
      P = pointAt O d (min t1 t2)) := by
  rcases Rectangle.RayIntersection_cases r O d with
    ⟨hno, _⟩ | ⟨tmin, hres, _, ⟨e0, he0, hhit0, ht0⟩, hall⟩
  · rw [hno] at h
    simp at h
  · have hP : P = pointAt O d tmin := by
      rw [hres] at h
      exact ((Prod.mk.inj h).2).symm
    have hmin : ∀ e ∈ r.edges, ∀ t : F, rayLineIntersection O d e.1 e.2 = (true, t) →
        tmin ≤ t := by
      intro e he t ht
      have := hall e he (by rw [ht])
      rw [ht] at this
      exact this
    have h0 : rayLineIntersection O d e0.1 e0.2 = (true, tmin) :=
      rayLine_eq_of_fst_snd O d e0.1 e0.2 tmin hhit0 ht0
    refine ⟨⟨tmin, hP, ⟨e0, he0, h0⟩, hmin⟩, ?_, ?_⟩
    · intro e _ t ht hothers
      by_cases hne : e0 = e
      · rw [hne, ht] at h0
        rw [hP, (Prod.mk.inj h0).2]
      · have := hothers e0 he0 hne
        rw [hhit0] at this
        simp at this
    · intro e1 he1 e2 he2 t1 t2 ht1 ht2 hothers
      have hle1 := hmin e1 he1 t1 ht1
      have hle2 := hmin e2 he2 t2 ht2
      have hcase : tmin = t1 ∨ tmin = t2 := by
        by_cases hne1 : e0 = e1
        · left
          rw [hne1, ht1] at h0
          exact ((Prod.mk.inj h0).2).symm
        · by_cases hne2 : e0 = e2
          · right
            rw [hne2, ht2] at h0
            exact ((Prod.mk.inj h0).2).symm
          · have := hothers e0 he0 hne1 hne2
            rw [hhit0] at this
            simp at this
      rw [hP]
      rcases hcase with hc | hc
      · rw [hc, min_eq_left (hc ▸ hle2)]
      · rw [hc, min_eq_right (hc ▸ hle1)]

/-- C8 at the unit square with corner `(0, 0)` and the ray from `(-2, 1/2)`
along `(1/2, 0)`: the left edge is hit at `t = 4`, the right edge at `t = 6`,
and the reported point is `(0, 1/2)`. -/
theorem rectangle_hit_min_t_witness :
    (∃ tmin : ℚ, (⟨0, 1 / 2⟩ : Vector2 ℚ) = pointAt ⟨-2, 1 / 2⟩ ⟨1 / 2, 0⟩ tmin ∧
      (∃ e ∈ Rectangle.edges (⟨0, 0, 1, 1, wallColor⟩ : Rectangle ℚ),
        rayLineIntersection ⟨-2, 1 / 2⟩ ⟨1 / 2, 0⟩ e.1 e.2 = (true, tmin)) ∧
      ∀ e ∈ Rectangle.edges (⟨0, 0, 1, 1, wallColor⟩ : Rectangle ℚ), ∀ t : ℚ,
        rayLineIntersection ⟨-2, 1 / 2⟩ ⟨1 / 2, 0⟩ e.1 e.2 = (true, t) → tmin ≤ t) ∧
    (∀ e ∈ Rectangle.edges (⟨0, 0, 1, 1, wallColor⟩ : Rectangle ℚ), ∀ t : ℚ,
      rayLineIntersection ⟨-2, 1 / 2⟩ ⟨1 / 2, 0⟩ e.1 e.2 = (true, t) →
      (∀ e2 ∈ Rectangle.edges (⟨0, 0, 1, 1, wallColor⟩ : Rectangle ℚ), e2 ≠ e →
        (rayLineIntersection (⟨-2, 1 / 2⟩ : Vector2 ℚ) ⟨1 / 2, 0⟩ e2.1 e2.2).1 = false) →
      (⟨0, 1 / 2⟩ : Vector2 ℚ) = pointAt ⟨-2, 1 / 2⟩ ⟨1 / 2, 0⟩ t) ∧
    (∀ e1 ∈ Rectangle.edges (⟨0, 0, 1, 1, wallColor⟩ : Rectangle ℚ),
      ∀ e2 ∈ Rectangle.edges (⟨0, 0, 1, 1, wallColor⟩ : Rectangle ℚ), ∀ t1 t2 : ℚ,
      rayLineIntersection ⟨-2, 1 / 2⟩ ⟨1 / 2, 0⟩ e1.1 e1.2 = (true, t1) →
      rayLineIntersection ⟨-2, 1 / 2⟩ ⟨1 / 2, 0⟩ e2.1 e2.2 = (true, t2) →
      (∀ e3 ∈ Rectangle.edges (⟨0, 0, 1, 1, wallColor⟩ : Rectangle ℚ), e3 ≠ e1 → e3 ≠ e2 →
        (rayLineIntersection (⟨-2, 1 / 2⟩ : Vector2 ℚ) ⟨1 / 2, 0⟩ e3.1 e3.2).1 = false) →
      (⟨0, 1 / 2⟩ : Vector2 ℚ) = pointAt ⟨-2, 1 / 2⟩ ⟨1 / 2, 0⟩ (min t1 t2)) :=
  rectangle_hit_min_t ⟨0, 0, 1, 1, wallColor⟩ ⟨-2, 1 / 2⟩ ⟨1 / 2, 0⟩ ⟨0, 1 / 2⟩
    (by norm_num [Rectangle.RayIntersection, Rectangle.edges, Rectangle.edgeStep,
      rayLineIntersection, abs_lt, MaxFloat32])

/-- C9, refuted as stated: the unit square with corner `(0, 0)` and the ray
from `(-2^127, 1/2)` along `(1/2, 0)`.  `rayLineIntersection` hits the left
edge, at `t = 2^128`, which is not below `MaxFloat32`; `Rectangle.RayIntersection`
returns no-hit although not all four edges are missed. -/
theorem rectangle_far_hit_dropped :
    ¬ (Rectangle.RayIntersection (⟨0, 0, 1, 1, wallColor⟩ : Rectangle ℚ) ⟨-2 ^ 127, 1 / 2⟩
          ⟨1 / 2, 0⟩ = (false, ⟨0, 0⟩) ↔
        ∀ e ∈ Rectangle.edges (⟨0, 0, 1, 1, wallColor⟩ : Rectangle ℚ),
          (rayLineIntersection (⟨-2 ^ 127, 1 / 2⟩ : Vector2 ℚ) ⟨1 / 2, 0⟩ e.1 e.2).1 =
            false) := by
  intro h
  have hno : Rectangle.RayIntersection (⟨0, 0, 1, 1, wallColor⟩ : Rectangle ℚ)
      ⟨-2 ^ 127, 1 / 2⟩ ⟨1 / 2, 0⟩ = (false, ⟨0, 0⟩) := by
    norm_num [Rectangle.RayIntersection, Rectangle.edges, Rectangle.edgeStep,
      rayLineIntersection, abs_lt, MaxFloat32]
  have hleft : rayLineIntersection (⟨-2 ^ 127, 1 / 2⟩ : Vector2 ℚ) ⟨1 / 2, 0⟩ ⟨0, 0 + 1⟩
      ⟨0, 0⟩ = (true, 2 ^ 128) := by
    norm_num [rayLineIntersection, abs_lt]
  have hmiss := h.1 hno (⟨0, 0 + 1⟩, ⟨0, 0⟩) (by simp [Rectangle.edges])
  rw [hleft] at hmiss
  simp at hmiss

/-- C9, amended: for every rectangle and ray, `Rectangle.RayIntersection`
returns no-hit if and only if every boundary edge is missed by
`rayLineIntersection` or hit at a `t` not below `MaxFloat32`; if any edge is
hit at a `t` below `MaxFloat32`, a hit is returned. -/
theorem rectangle_no_hit_iff (r : Rectangle F) (O d : Vector2 F) :
    (r.RayIntersection O d = (false, ⟨0, 0⟩) ↔
      ∀ e ∈ r.edges, ∀ t : F, rayLineIntersection O d e.1 e.2 = (true, t) →
        MaxFloat32 ≤ t) ∧
    ((∃ e ∈ r.edges, ∃ t : F, rayLineIntersection O d e.1 e.2 = (true, t) ∧
        t < MaxFloat32) → (r.RayIntersection O d).1 = true) := by
  have hiff : r.RayIntersection O d = (false, ⟨0, 0⟩) ↔
      ∀ e ∈ r.edges, ∀ t : F, rayLineIntersection O d e.1 e.2 = (true, t) →
        MaxFloat32 ≤ t := by
    rcases Rectangle.RayIntersection_cases r O d with
      ⟨hno, hall⟩ | ⟨tmin, hres, hlt, ⟨e0, he0, hhit0, ht0⟩, _⟩
    · refine ⟨fun _ => ?_, fun _ => hno⟩
      intro e he t ht
      have := hall e he (by rw [ht])
      rw [ht] at this
      exact this
    · constructor
      · intro hno
        rw [hres] at hno
        simp at hno
      · intro hall
        have := hall e0 he0 tmin (rayLine_eq_of_fst_snd O d e0.1 e0.2 tmin hhit0 ht0)
        exact absurd hlt (not_lt.2 this)
  refine ⟨hiff, ?_⟩
  rintro ⟨e, he, t, ht, hlt⟩
  rcases Rectangle.RayIntersection_cases r O d with
    ⟨hno, _⟩ | ⟨tmin, hres, _, _, _⟩
  · exact absurd hlt (not_lt.2 (hiff.1 hno e he t ht))
  · rw [hres]

end RectangleShape

section FullLength

variable {F : Type} [LinearOrderedField F]

/-- With no obstacle the loop of `draw` leaves `end` at its initial value. -/
theorem rayEnd_nil (sqrt : F → F) (light : Circle F) (maxDistance cosA sinA : F) :
    rayEnd sqrt [] light maxDistance cosA sinA =
      ⟨light.X + cosA * maxDistance, light.Y + sinA * maxDistance⟩ := by
  simp [rayEnd, scan, fullLengthEnd, rayDirection]

/-- With an exact square root, `getMaxDistance` is the non-negative number
whose square is `w² + h²`. -/
theorem getMaxDistance_sq (sqrt : F → F) (hs : IsSqrt sqrt) (w h : Int) :
    0 ≤ getMaxDistance sqrt w h ∧
      getMaxDistance sqrt w h * getMaxDistance sqrt w h = (w : F) ^ 2 + (h : F) ^ 2 := by
  have h0 : (0 : F) ≤ ((w * w + h * h : Int) : F) := by
    push_cast
    exact add_nonneg (mul_self_nonneg _) (mul_self_nonneg _)
  obtain ⟨h1, h2⟩ := hs _ h0
  refine ⟨h1, ?_⟩
  unfold getMaxDistance
  rw [h2]
  push_cast
  ring

/-- C11, refuted as stated: the light of `main.go`, `maxDistance = 100`, the
ray at angle 0 and no obstacle.  The ray origin is `(165, 150)`, and the
endpoint is `(250, 150)`, not the origin plus `(1, 0) * 100`, which is
`(265, 150)`. -/
theorem rayEnd_nil_not_from_origin :
    ¬ (rayEnd Rat.sqrt [] lightCircle 100 1 0 =
        (⟨(rayOrigin lightCircle 1 0).X + 1 * 100, (rayOrigin lightCircle 1 0).Y + 0 * 100⟩ :
          Vector2 ℚ)) := by
  rw [rayEnd_nil]
  norm_num [rayOrigin, lightCircle]

/-- C11, amended: for every light position, light radius, `maxDistance` and
ray angle, with an empty obstacle list the endpoint computed by `draw` is the
light centre plus `(cos, sin) * maxDistance`; measured from the ray origin on
the circumference it is the origin plus `(cos, sin) * (maxDistance - radius)`. -/
theorem rayEnd_nil_from_centre (sqrt : F → F) (light : Circle F) (maxDistance cosA sinA : F) :
    rayEnd sqrt [] light maxDistance cosA sinA =
      ⟨light.X + cosA * maxDistance, light.Y + sinA * maxDistance⟩ ∧
    rayEnd sqrt [] light maxDistance cosA sinA =
      ⟨(rayOrigin light cosA sinA).X + cosA * (maxDistance - light.Radius),
       (rayOrigin light cosA sinA).Y + sinA * (maxDistance - light.Radius)⟩ := by
  rw [rayEnd_nil]
  refine ⟨rfl, ?_⟩
  simp only [rayOrigin, Vector2.mk.injEq]
  constructor <;> ring

/-- C15. The registry built by `createMap` holds exactly 5 `Circle` pillars,
exactly 2 `Rectangle` pieces and 20 `Line` walls, 27 obstacles in all, fewer
than 30. -/
theorem createMap_counts :
    (createMap (F := F)).countP Shape.isCircle = 5 ∧
    (createMap (F := F)).countP Shape.isRectangle = 2 ∧
    (createMap (F := F)).countP Shape.isLine = 20 ∧
    (createMap (F := F)).length = 27 ∧
    (createMap (F := F)).length < 30 := by
  refine ⟨rfl, rfl, rfl, rfl, ?_⟩
  simp [createMap]

end FullLength

section ForwardRay

variable {F : Type} [LinearOrderedField F]

/-- The parameter returned with a hit by `rayLineIntersection` is
non-negative. -/
theorem rayLineIntersection_t_nonneg (O d A B : Vector2 F) (t : F)
    (h : rayLineIntersection O d A B = (true, t)) : 0 ≤ t := by
  simp only [rayLineIntersection] at h
  split_ifs at h with h1 h2
  · simp at h
  · rw [← (Prod.mk.inj h).2]
    exact h2.1
  · simp at h

/-- Every shape reports its hit at a point `origin + t*dir` with `t ≥ 0`. -/
theorem Shape.hit_forward (sqrt : F → F) (s : Shape F) (O d : Vector2 F)
    (h : (s.RayIntersection sqrt O d).1 = true) :
    ∃ t : F, 0 ≤ t ∧ (s.RayIntersection sqrt O d).2 = pointAt O d t := by
  cases s with
  | circle c =>
    simp only [Shape.RayIntersection] at h ⊢
    have hres : c.RayIntersection sqrt O d = (true, (c.RayIntersection sqrt O d).2) :=
      Prod.ext h rfl
    obtain ⟨_, ht, hP⟩ := Circle.hit_inv sqrt c O d _ hres
    exact ⟨_, ht, hP⟩
  | rectangle r =>
    simp only [Shape.RayIntersection] at h ⊢
    rcases Rectangle.RayIntersection_cases r O d with
      ⟨hno, _⟩ | ⟨tmin, hres, _, ⟨e0, _, hhit0, ht0⟩, _⟩
    · rw [hno] at h
      simp at h
    · refine ⟨tmin, ?_, by rw [hres]⟩
      exact rayLineIntersection_t_nonneg O d e0.1 e0.2 tmin
        (rayLine_eq_of_fst_snd O d e0.1 e0.2 tmin hhit0 ht0)
  | line l =>
    simp only [Shape.RayIntersection] at h ⊢
    rcases rayLineIntersection_cases O d l.Start l.End with h0 | ⟨t, ht⟩
    · simp [Line.RayIntersection, h0] at h
    · refine ⟨t, rayLineIntersection_t_nonneg O d l.Start l.End t ht, ?_⟩
      simp [Line.RayIntersection, ht, pointAt]

/-- With an exact square root, the distance that `draw` computes for the
point `origin + t*dir`, `t ≥ 0`, is `t * |dir|`. -/
theorem distance_pointAt (sqrt : F → F) (hs : IsSqrt sqrt) (O d : Vector2 F) (t : F)
    (ht : 0 ≤ t) :
    distance sqrt O (pointAt O d t) = t * sqrt (d.X * d.X + d.Y * d.Y) := by
  have hq : 0 ≤ d.X * d.X + d.Y * d.Y := add_nonneg (mul_self_nonneg _) (mul_self_nonneg _)
  obtain ⟨h0, h1⟩ := hs _ hq
  unfold distance
  apply hs.eq_of_mul_self (mul_nonneg ht h0)
  simp only [pointAt]
  linear_combination (-(t * t)) * h1

/-- C20. Every reported hit lies on the forward ray: for each shape variant
(`Circle` with radius `> 0`, `Rectangle`, `Line`) and every ray with non-zero
direction `d`, when `RayIntersection` reports a hit at `P` there is `t ≥ 0`
with `P = rayStart + t*d`, and (with an exact square root) the distance from
the ray origin to `P` is `t * |d|`. -/
theorem hit_on_forward_ray (sqrt : F → F) (hs : IsSqrt sqrt) (s : Shape F)
    (O d P : Vector2 F) (_hd : d.X ≠ 0 ∨ d.Y ≠ 0)
    (_hr : ∀ c : Circle F, s = Shape.circle c → 0 < c.Radius)
    (hhit : s.RayIntersection sqrt O d = (true, P)) :
    ∃ t : F, 0 ≤ t ∧ P = pointAt O d t ∧
      distance sqrt O P = t * sqrt (d.X * d.X + d.Y * d.Y) := by
  obtain ⟨t, ht, hP⟩ := Shape.hit_forward sqrt s O d (by rw [hhit])
  rw [hhit] at hP
  have hP2 : P = pointAt O d t := hP
  exact ⟨t, ht, hP2, by rw [hP2]; exact distance_pointAt sqrt hs O d t ht⟩

/-- C20 on the reals: the pillar of radius 3 centred at `(5, 0)`, hit at
`(2, 0)` by the ray from `(0, 0)` along `(1, 0)`. -/
theorem hit_on_forward_ray_witness :
    ∃ t : ℝ, 0 ≤ t ∧ (⟨2, 0⟩ : Vector2 ℝ) = pointAt ⟨0, 0⟩ ⟨1, 0⟩ t ∧
      distance Real.sqrt (⟨0, 0⟩ : Vector2 ℝ) ⟨2, 0⟩ =
        t * Real.sqrt ((1 : ℝ) * 1 + 0 * 0) :=
  hit_on_forward_ray Real.sqrt isSqrt_real (Shape.circle ⟨5, 0, 3, pillarColor⟩) ⟨0, 0⟩ ⟨1, 0⟩
    ⟨2, 0⟩ (Or.inl (by norm_num))
    (by
      intro c hc
      cases hc
      norm_num)
    (by
      have h := Circle.RayIntersection_of_sq Real.sqrt isSqrt_real
        (⟨5, 0, 3, pillarColor⟩ : Circle ℝ) ⟨0, 0⟩ ⟨1, 0⟩ 6 2 (by norm_num)
        (by norm_num [Circle.discriminant, Circle.coeffA, Circle.coeffB, Circle.coeffC])
        (by norm_num [Circle.coeffA, Circle.coeffB]) (by norm_num)
      simp only [Shape.RayIntersection]
      rw [h]
      norm_num [pointAt])

end ForwardRay

section LightPosition

variable {F : Type} [LinearOrderedField F]

end LightPosition

section HorizontalRay

variable {F : Type} [LinearOrderedField F]

/-- A hit of `rayLineIntersection` is a meeting point of ray and segment. -/
theorem rayLineIntersection_hit_meets (O d A B : Vector2 F) (t : F)
    (h : rayLineIntersection O d A B = (true, t)) : MeetsSegmentAt O d A B t := by
  by_cases hp : |cross d (segDir A B)| < 1 / 1000000
  · rw [rayLineIntersection_parallel O d A B hp] at h
    simp at h
  · exact (rayLineIntersection_true_iff O d A B (not_lt.1 hp) t).1 h

/-- With an exact square root, the computed distance from `O` of the point at
parameter `t ≥ 0` of the ray along `(M, 0)`, `M ≥ 0`, is `t * M`. -/
theorem distance_horizontal (sqrt : F → F) (hs : IsSqrt sqrt) (O : Vector2 F) (M t : F)
    (hM : 0 ≤ M) (ht : 0 ≤ t) :
    distance sqrt O (pointAt O ⟨M, 0⟩ t) = t * M := by
  rw [distance_pointAt sqrt hs O ⟨M, 0⟩ t ht]
  have : sqrt (M * M + 0 * 0) = M := hs.eq_of_mul_self hM (by ring)
  rw [this]

/-- A segment that the ray from `O` along `(M, 0)` can only meet beyond `D`
reports its hit, if any, at a distance above `D`. -/
theorem segment_far (sqrt : F → F) (hs : IsSqrt sqrt) (O A B : Vector2 F) (M D t : F)
    (hM : 0 < M)
    (hgeo : ∀ X u : F, 0 ≤ X → 0 ≤ u → u ≤ 1 → O.X + X = A.X + u * (B.X - A.X) →
      O.Y = A.Y + u * (B.Y - A.Y) → D < X)
    (hhit : rayLineIntersection O ⟨M, 0⟩ A B = (true, t)) :
    D < distance sqrt O (pointAt O ⟨M, 0⟩ t) := by
  obtain ⟨ht, u, hu0, hu1, hx, hy⟩ := rayLineIntersection_hit_meets O ⟨M, 0⟩ A B t hhit
  rw [distance_horizontal sqrt hs O M t (le_of_lt hM) ht]
  simp only [mul_zero, add_zero] at hy
  exact hgeo (t * M) u (mul_nonneg ht (le_of_lt hM)) hu0 hu1 hx hy

/-- The wall case of the horizontal ray. -/
theorem line_far (sqrt : F → F) (hs : IsSqrt sqrt) (l : Line F) (O P : Vector2 F) (M D : F)
    (hM : 0 < M)
    (hgeo : ∀ X u : F, 0 ≤ X → 0 ≤ u → u ≤ 1 →
      O.X + X = l.Start.X + u * (l.End.X - l.Start.X) →
      O.Y = l.Start.Y + u * (l.End.Y - l.Start.Y) → D < X)
    (hhit : (Shape.line l).RayIntersection sqrt O ⟨M, 0⟩ = (true, P)) :
    D < distance sqrt O P := by
  simp only [Shape.RayIntersection] at hhit
  rcases rayLineIntersection_cases O ⟨M, 0⟩ l.Start l.End with h0 | ⟨t, ht⟩
  · simp [Line.RayIntersection, h0] at hhit
  · have hP : P = pointAt O ⟨M, 0⟩ t := by
      simp only [Line.RayIntersection, ht, if_true, Prod.mk.injEq, true_and] at hhit
      rw [← hhit, pointAt]
    rw [hP]
    exact segment_far sqrt hs O l.Start l.End M D t hM hgeo ht

/-- The rectangle case of the horizontal ray. -/
theorem rectangle_far (sqrt : F → F) (hs : IsSqrt sqrt) (r : Rectangle F) (O P : Vector2 F)
    (M D : F) (hM : 0 < M)
    (hgeo : ∀ e ∈ r.edges, ∀ X u : F, 0 ≤ X → 0 ≤ u → u ≤ 1 →
      O.X + X = e.1.X + u * (e.2.X - e.1.X) →
      O.Y = e.1.Y + u * (e.2.Y - e.1.Y) → D < X)
    (hhit : (Shape.rectangle r).RayIntersection sqrt O ⟨M, 0⟩ = (true, P)) :
    D < distance sqrt O P := by
  simp only [Shape.RayIntersection] at hhit
  rcases Rectangle.RayIntersection_cases r O ⟨M, 0⟩ with
    ⟨hno, _⟩ | ⟨tmin, hres, _, ⟨e0, he0, hhit0, ht0⟩, _⟩
  · rw [hno] at hhit
    simp at hhit
  · rw [hres] at hhit
    rw [← (Prod.mk.inj hhit).2]
    exact segment_far sqrt hs O e0.1 e0.2 M D tmin hM (hgeo e0 he0)
      (rayLine_eq_of_fst_snd O ⟨M, 0⟩ e0.1 e0.2 tmin hhit0 ht0)

/-- The pillar case of the horizontal ray. -/
theorem circle_far (sqrt : F → F) (hs : IsSqrt sqrt) (c : Circle F) (O P : Vector2 F)
    (M D : F) (hM : 0 < M)
    (hgeo : ∀ X : F, 0 ≤ X → (O.X + X - c.X) ^ 2 + (O.Y - c.Y) ^ 2 = c.Radius ^ 2 → D < X)
    (hhit : (Shape.circle c).RayIntersection sqrt O ⟨M, 0⟩ = (true, P)) :
    D < distance sqrt O P := by
  simp only [Shape.RayIntersection] at hhit
  have hd : (⟨M, 0⟩ : Vector2 F).X ≠ 0 ∨ (⟨M, 0⟩ : Vector2 F).Y ≠ 0 := Or.inl (ne_of_gt hM)
  have ha := Circle.coeffA_pos (⟨M, 0⟩ : Vector2 F) hd
  obtain ⟨hdisc, ht, hP⟩ := Circle.hit_inv sqrt c O ⟨M, 0⟩ P hhit
  have hon : c.OnBoundary (pointAt O ⟨M, 0⟩ (Circle.nearRoot sqrt c O ⟨M, 0⟩)) := by
    rw [Circle.onBoundary_iff, Circle.quadratic_factor sqrt hs c O ⟨M, 0⟩ ha hdisc]
    simp
  rw [hP, distance_horizontal sqrt hs O M _ (le_of_lt hM) ht]
  apply hgeo _ (mul_nonneg ht (le_of_lt hM))
  simp only [Circle.OnBoundary, pointAt] at hon
  linear_combination hon

/-- The ray at angle 0 from the initial light starts at `(165, 150)`. -/
theorem rayOrigin_initial_angle0 :
    rayOrigin (lightCircle : Circle F) 1 0 = ⟨165, 150⟩ := by
  simp only [rayOrigin, lightCircle, Vector2.mk.injEq]
  constructor <;> norm_num

/-- The ray at angle 0 has direction `(maxDistance, 0)`. -/
theorem rayDirection_angle0 (M : F) : rayDirection M 1 0 = ⟨M, 0⟩ := by
  simp [rayDirection]

/-- The first pillar of `createMap` is hit at `(220, 150)` by the ray from
`(165, 150)` along `(M, 0)`. -/
theorem pillar1_hit (sqrt : F → F) (hs : IsSqrt sqrt) (M : F) (hM : 0 < M) :
    (Shape.circle ⟨250, 150, 30, pillarColor⟩).RayIntersection sqrt ⟨165, 150⟩ ⟨M, 0⟩ =
      (true, ⟨220, 150⟩) := by
  have hM0 : M ≠ 0 := ne_of_gt hM
  have h := Circle.RayIntersection_of_sq sqrt hs (⟨250, 150, 30, pillarColor⟩ : Circle F)
    ⟨165, 150⟩ ⟨M, 0⟩ (60 * M) (55 / M) (by positivity)
    (by simp only [Circle.discriminant, Circle.coeffA, Circle.coeffB, Circle.coeffC]; ring)
    (by
      simp only [Circle.coeffA, Circle.coeffB]
      field_simp
      ring)
    (by positivity)
  simp only [Shape.RayIntersection]
  rw [h]
  simp only [pointAt, Prod.mk.injEq, Vector2.mk.injEq, true_and]
  constructor
  · field_simp; norm_num
  · norm_num

/-- The computed distance from `(165, 150)` to `(220, 150)` is 55. -/
theorem distance_pillar1 (sqrt : F → F) (hs : IsSqrt sqrt) :
    distance sqrt (⟨165, 150⟩ : Vector2 F) ⟨220, 150⟩ = 55 := by
  unfold distance
  exact hs.eq_of_mul_self (by norm_num) (by norm_num)

/-- Along the ray from `(165, 150)` along `(M, 0)`, every obstacle of
`createMap` that reports a hit reports it at `(220, 150)` or at a distance
above 55. -/
theorem createMap_angle0_far (sqrt : F → F) (hs : IsSqrt sqrt) (M : F) (hM : 0 < M) :
    ∀ ob ∈ createMap, ∀ P : Vector2 F,
      ob.RayIntersection sqrt ⟨165, 150⟩ ⟨M, 0⟩ = (true, P) →
      P = ⟨220, 150⟩ ∨ 55 < distance sqrt ⟨165, 150⟩ P := by
  intro ob hob P hhit
  simp only [createMap, List.mem_cons, List.mem_singleton, List.not_mem_nil, or_false] at hob
  rcases hob with rfl | rfl | rfl | rfl | rfl | rfl | rfl | rfl | rfl | rfl | rfl | rfl | rfl | rfl | rfl | rfl | rfl | rfl | rfl | rfl | rfl | rfl | rfl | rfl | rfl | rfl | rfl
  all_goals first
    | (right
       refine line_far sqrt hs _ _ P M 55 hM ?_ hhit
       intro X u hX hu0 hu1 hx hy
       first | linarith | (norm_num at hx hy <;> linarith))
    | (left
       rw [pillar1_hit sqrt hs M hM] at hhit
       exact ((Prod.mk.inj hhit).2).symm)
    | (right
       refine circle_far sqrt hs _ _ P M 55 hM ?_ hhit
       intro X hX h
       by_contra hle
       push_neg at hle
       norm_num at h
       nlinarith [sq_nonneg (55 - X), sq_nonneg (X - 435), sq_nonneg (X - 35),
         sq_nonneg (X - 385)])
    | (right
       refine rectangle_far sqrt hs _ _ P M 55 hM ?_ hhit
       intro e he X u hX hu0 hu1 hx hy
       simp only [Rectangle.edges, List.mem_cons, List.mem_singleton, List.not_mem_nil,
         or_false] at he
       rcases he with rfl | rfl | rfl | rfl <;>
         first | linarith | (norm_num at hx hy <;> linarith))

/-- On the map of `createMap`, with the initial light and any `maxDistance`
above 55, the ray at angle 0 ends on the first pillar, at `(220, 150)`. -/
theorem rayEnd_createMap_angle0 (sqrt : F → F) (hs : IsSqrt sqrt) (M : F) (hM : 55 < M) :
    rayEnd sqrt createMap lightCircle M 1 0 = ⟨220, 150⟩ := by
  have hM0 : 0 < M := lt_trans (by norm_num) hM
  have hpillar : (Shape.circle ⟨250, 150, 30, pillarColor⟩ : Shape F) ∈ createMap := by
    simp [createMap]
  have hex : ∃ ob ∈ createMap,
      (ob.RayIntersection sqrt (rayOrigin lightCircle 1 0) (rayDirection M 1 0)).1 = true ∧
      distance sqrt (rayOrigin lightCircle 1 0)
        (ob.RayIntersection sqrt (rayOrigin lightCircle 1 0) (rayDirection M 1 0)).2 < M := by
    refine ⟨_, hpillar, ?_, ?_⟩
    · rw [rayOrigin_initial_angle0, rayDirection_angle0, pillar1_hit sqrt hs M hM0]
    · rw [rayOrigin_initial_angle0, rayDirection_angle0, pillar1_hit sqrt hs M hM0,
        distance_pillar1 sqrt hs]
      exact hM
  obtain ⟨⟨o, ho, hh, hp⟩, hmin⟩ := rayEnd_of_close_hit sqrt createMap lightCircle M 1 0 hex
  have hle := hmin _ hpillar (by
    rw [rayOrigin_initial_angle0, rayDirection_angle0, pillar1_hit sqrt hs M hM0])
  rw [rayOrigin_initial_angle0, rayDirection_angle0] at hh hp hle
  rw [pillar1_hit sqrt hs M hM0, distance_pillar1 sqrt hs] at hle
  have hres : o.RayIntersection sqrt ⟨165, 150⟩ ⟨M, 0⟩ =
      (true, (o.RayIntersection sqrt ⟨165, 150⟩ ⟨M, 0⟩).2) := Prod.ext hh rfl
  rcases createMap_angle0_far sqrt hs M hM0 o ho _ hres with h | h
  · rw [hp, h]
  · rw [hp] at hle
    exact absurd hle (not_le.2 h)

/-- The diagonal of the `1200 × 800` window is above 55. -/
theorem diagonal_gt (sqrt : F → F) (hs : IsSqrt sqrt) :
    55 < getMaxDistance sqrt 1200 800 := by
  obtain ⟨h0, h1⟩ := getMaxDistance_sq sqrt hs 1200 800
  by_contra hle
  push_neg at hle
  have := mul_self_le_mul_self h0 hle
  rw [h1] at this
  norm_num at this

/-- C12, refuted as stated: on the map of `createMap`, with the light at
`(150, 150)`, radius 15, `maxDistance` the diagonal of the `1200 × 800` window
and the ray at angle 0, the endpoint is not the point `(450, 150)` of the
Room-2 left wall. -/
theorem scenario_not_room2_wall :
    ¬ (rayEnd Real.sqrt createMap lightCircle (getMaxDistance Real.sqrt 1200 800) 1 0 =
        (⟨450, 150⟩ : Vector2 ℝ)) := by
  rw [rayEnd_createMap_angle0 Real.sqrt isSqrt_real _ (diagonal_gt Real.sqrt isSqrt_real)]
  norm_num

/-- C12, amended: on the map of `createMap`, with the light at `(150, 150)`,
radius 15, `maxDistance` the diagonal of the `1200 × 800` window and the ray at
angle 0 (origin `(165, 150)`), the occlusion loop reports as endpoint the hit
on the first pillar (centre `(250, 150)`, radius 30), the point `(220, 150)`
at distance 55 from the ray origin, with no obstacle of the map hit closer. -/
theorem scenario_hits_pillar (sqrt : F → F) (hs : IsSqrt sqrt) :
    rayOrigin (lightCircle : Circle F) 1 0 = ⟨165, 150⟩ ∧
    rayEnd sqrt createMap lightCircle (getMaxDistance sqrt 1200 800) 1 0 = ⟨220, 150⟩ ∧
    probe sqrt lightCircle (getMaxDistance sqrt 1200 800) 1 0
      (Shape.circle ⟨250, 150, 30, pillarColor⟩) = (true, ⟨220, 150⟩) ∧
    distance sqrt (rayOrigin lightCircle 1 0) (⟨220, 150⟩ : Vector2 F) = 55 ∧
    IsClosestHit sqrt createMap lightCircle (getMaxDistance sqrt 1200 800) 1 0 ⟨220, 150⟩ := by
  have hM := diagonal_gt sqrt hs
  have hM0 : (0 : F) < getMaxDistance sqrt 1200 800 := lt_trans (by norm_num) hM
  have hend := rayEnd_createMap_angle0 sqrt hs _ hM
  have hpillar : probe sqrt lightCircle (getMaxDistance sqrt 1200 800) 1 0
      (Shape.circle ⟨250, 150, 30, pillarColor⟩) = (true, ⟨220, 150⟩) := by
    unfold probe
    rw [rayOrigin_initial_angle0, rayDirection_angle0, pillar1_hit sqrt hs _ hM0]
  have hdist : distance sqrt (rayOrigin lightCircle 1 0) (⟨220, 150⟩ : Vector2 F) = 55 := by
    rw [rayOrigin_initial_angle0, distance_pillar1 sqrt hs]
  refine ⟨rayOrigin_initial_angle0, hend, hpillar, hdist, ?_⟩
  have hclose : ∃ ob ∈ createMap,
      CloseHit sqrt lightCircle (getMaxDistance sqrt 1200 800) 1 0 ob := by
    refine ⟨Shape.circle ⟨250, 150, 30, pillarColor⟩, by simp [createMap], ?_⟩
    unfold CloseHit
    rw [hpillar, hdist]
    exact ⟨rfl, hM⟩
  have := rayEnd_of_close_hit sqrt createMap lightCircle (getMaxDistance sqrt 1200 800) 1 0
    hclose
  rw [hend] at this
  exact this

/-- C12, amended, on the reals. -/
theorem scenario_hits_pillar_witness :
    rayOrigin (lightCircle : Circle ℝ) 1 0 = ⟨165, 150⟩ ∧
    rayEnd Real.sqrt createMap lightCircle (getMaxDistance Real.sqrt 1200 800) 1 0 =
      ⟨220, 150⟩ ∧
    probe Real.sqrt lightCircle (getMaxDistance Real.sqrt 1200 800) 1 0
      (Shape.circle ⟨250, 150, 30, pillarColor⟩) = (true, ⟨220, 150⟩) ∧
    distance Real.sqrt (rayOrigin lightCircle 1 0) (⟨220, 150⟩ : Vector2 ℝ) = 55 ∧
    IsClosestHit Real.sqrt createMap lightCircle (getMaxDistance Real.sqrt 1200 800) 1 0
      ⟨220, 150⟩ :=
  scenario_hits_pillar Real.sqrt isSqrt_real

/-- C16, the code at a failing input: the map of `createMap`, the initial
light (radius 15) and `maxDistance = 60`, as in a `36 × 48` window, with the
ray at angle 0.  Without obstacles the ray runs from `(165, 150)` to
`(210, 150)`, length 45; with the obstacles it ends on the first pillar at
`(220, 150)`, length 55: the obstacles make the ray longer. -/
theorem occlusion_lengthens_ray :
    getMaxDistance Real.sqrt 36 48 = 60 ∧
    (0 : ℝ) ≤ (lightCircle : Circle ℝ).Radius ∧ (lightCircle : Circle ℝ).Radius ≤ 60 ∧
    rayEnd Real.sqrt [] lightCircle 60 1 0 = (⟨210, 150⟩ : Vector2 ℝ) ∧
    rayEnd Real.sqrt createMap lightCircle 60 1 0 = (⟨220, 150⟩ : Vector2 ℝ) ∧
    distance Real.sqrt (rayOrigin lightCircle 1 0) (rayEnd Real.sqrt [] lightCircle 60 1 0) =
      45 ∧
    distance Real.sqrt (rayOrigin lightCircle 1 0)
      (rayEnd Real.sqrt createMap lightCircle 60 1 0) = 55 := by
  have hnil : rayEnd Real.sqrt [] lightCircle 60 1 0 = (⟨210, 150⟩ : Vector2 ℝ) := by
    rw [rayEnd_nil]
    norm_num [lightCircle]
  have hmap := rayEnd_createMap_angle0 Real.sqrt isSqrt_real (60 : ℝ) (by norm_num)
  refine ⟨?_, by norm_num [lightCircle], by norm_num [lightCircle], hnil, hmap, ?_, ?_⟩
  · unfold getMaxDistance
    exact isSqrt_real.eq_of_mul_self (by norm_num) (by norm_num)
  · rw [hnil, rayOrigin_initial_angle0]
    unfold distance
    exact isSqrt_real.eq_of_mul_self (by norm_num) (by norm_num)
  · rw [hmap, rayOrigin_initial_angle0]
    exact distance_pillar1 Real.sqrt isSqrt_real

end HorizontalRay

end Raycast
